import Mathlib

/-!
Verification of the result-checking and split/ranking engine of the pysport
repository (sportorg/models/result/result_checker.py and
sportorg/models/result/split_calculation.py), as a shallow embedding.

Times are modelled in integral milliseconds (the OTime resolution), Python
strings as Lean strings, and the relevant race settings as an explicit
record that every function receives instead of the `race()` singleton.
Parts of the data model that live in files outside the provided sources
(memory.py, constant.py) are modelled from the specification; each such
definition carries a doc comment starting with "Modelled from the spec".
-/

namespace SportOrg

/-! ### Python string helpers -/

/-- Characters of a string, used to mirror Python string operations. -/
def chars (s : String) : List Char := s.data

/-- Python str.isdigit: nonempty and all characters are digits. -/
def pyIsDigit (s : String) : Bool :=
  !s.data.isEmpty && s.data.all Char.isDigit

/-- Decimal value of a digit character list. -/
def digitsToNat : List Char → Nat → Nat
  | [], acc => acc
  | c :: cs, acc => digitsToNat cs (acc * 10 + (c.toNat - '0'.toNat))

/-- Numeric value of a digit-string code, mirroring Python's int() on the
decimal code strings of the data model; a non-numeric string reads as 0
(Python's int would raise there, outside the data model). -/
def pyInt (s : String) : Int :=
  if pyIsDigit s then (digitsToNat s.data 0 : Int) else 0

/-- Whether a string contains a given character, mirroring Python's `c in s`. -/
def strHasChar (s : String) (c : Char) : Bool :=
  s.data.contains c

/-- Drop characters satisfying a predicate from both ends of a character list. -/
def stripCharsList (p : Char → Bool) (l : List Char) : List Char :=
  ((l.dropWhile p).reverse.dropWhile p).reverse

/-- Python str.strip(cs): remove any of the given characters from both ends. -/
def pyStripChars (s : String) (cs : List Char) : String :=
  String.mk (stripCharsList (fun c => cs.contains c) s.data)

/-- Python str.strip(): remove whitespace from both ends. -/
def pyStripWS (s : String) : String :=
  String.mk (stripCharsList Char.isWhitespace s.data)

/-- Split a character list at every occurrence of a character, mirroring
Python's str.split(sep) for a one-character separator. -/
def splitCharList (c : Char) : List Char → List (List Char)
  | [] => [[]]
  | x :: xs =>
    match splitCharList c xs with
    | [] => [[x]]
    | r :: rs => if x = c then [] :: r :: rs else (x :: r) :: rs

/-- Python str.split(sep) for a one-character separator. -/
def pySplit (s : String) (c : Char) : List String :=
  (splitCharList c s.data).map String.mk

/-- Whether the first character list is a prefix of the second. -/
def prefixChars : List Char → List Char → Bool
  | [], _ => true
  | _ :: _, [] => false
  | a :: as, b :: bs => a == b && prefixChars as bs

/-- Whether the first character list occurs inside the second. -/
def hasSubChars (sub : List Char) : List Char → Bool
  | [] => sub.isEmpty
  | c :: rest => prefixChars sub (c :: rest) || hasSubChars sub rest

/-- Python str.find(sub) > -1, i.e. substring containment. -/
def pyFindSub (s sub : String) : Bool :=
  hasSubChars sub.data s.data

/-- Python str.lower() on the ASCII code strings of the data model. -/
def pyLower (s : String) : String :=
  String.mk (s.data.map Char.toLower)

/-- Last character of a string; the data model only takes it on nonempty
codes (Python would raise IndexError on ""). -/
def pyLastChar (s : String) : Char :=
  match s.data.getLast? with
  | some c => c
  | none => ' '

/-- Python s[:-1]: the string without its last character. -/
def pyDropLast (s : String) : String :=
  String.mk s.data.dropLast

/-! ### Data model (memory.py objects, restricted to the fields the engine reads) -/

/-- One punch event of a competitor's card. -/
structure Split where
  code : String
  time : Int
  is_correct : Bool
  has_penalty : Bool
deriving DecidableEq

/-- One course checkpoint. -/
structure Control where
  code : String
  length : Nat
  score : Int
deriving DecidableEq

/-- An ordered sequence of controls. -/
structure Course where
  controls : List Control
  length : Nat
deriving DecidableEq

/-- A competition group; max_time 0 means no time limit. -/
structure Group where
  name : String
  max_time : Int
  is_any_course : Bool
  is_relay : Bool
deriving DecidableEq

/-- A competitor; only the group and bib are read by the engine. -/
structure Person where
  group : Option Group
  bib : Nat
deriving DecidableEq

/-- Modelled from the spec: the status enumeration of a Result (memory.py is
not among the sources; §3 lists the members). -/
inductive ResultStatus
  | NONE
  | OK
  | MISSING_PUNCH
  | DISQUALIFIED
  | OVERTIME
  | DID_NOT_START
  | DID_NOT_FINISH
  | MISS_PENALTY_LAP
  | MULTI_DAY_ISSUE
deriving DecidableEq

/-- Modelled from the spec: the numeric value of each status member, used by
the ranking sort of §4.5 which compares statuses through enum values. -/
def ResultStatus.value : ResultStatus → Nat
  | .NONE => 0
  | .OK => 1
  | .MISSING_PUNCH => 2
  | .DISQUALIFIED => 3
  | .OVERTIME => 4
  | .DID_NOT_START => 5
  | .DID_NOT_FINISH => 6
  | .MISS_PENALTY_LAP => 7
  | .MULTI_DAY_ISSUE => 8

/-- One competitor's race record, with the fields the engine reads or writes. -/
structure Result where
  person : Option Person
  splits : List Split
  status : ResultStatus
  status_comment : String
  penalty_time : Int
  penalty_laps : Int
  credit_time : Int
  rogaine_score : Int
  rogaine_penalty : Int
  scores_ardf : Int
  trailo_score : Int
  trailo_score_penalty : Int
  trailo_time : Int
  start_time : Int
  finish_time : Int
deriving DecidableEq

/-- Modelled from the spec: Result.get_result_otime (memory.py is not among
the sources) is the competitor's elapsed result time, compared against the
group's max_time for overtime and used as the final ranking key; modelled
as finish minus start in milliseconds. -/
def Result.get_result_otime (r : Result) : Int :=
  r.finish_time - r.start_time

/-- The race configuration: the settings the engine reads, the race-level
control list used by get_control_score, and the course resolved for the
result being processed. -/
structure Race where
  result_processing_mode : String
  marked_route_mode : String
  marked_route_dont_dsq : Bool
  marked_route_if_station_check : Bool
  marked_route_penalty_lap_station_code : Int
  marked_route_penalty_time : Int
  marked_route_max_penalty_by_cp : Bool
  credit_time_enabled : Bool
  credit_time_cp : Int
  result_processing_scores_allow_duplicates : Bool
  result_processing_scores_minute_penalty : Int
  result_processing_scores_max_overrun_time : Int
  result_processing_score_mode : String
  result_processing_fixed_score_value : Int
  controls : List Control
  course : Option Course
deriving DecidableEq

/-- Modelled from the spec (§6 course resolution boundary): find_course
resolves a course for a result or reports it absent; modelled as the fixed
course the race configuration resolves for the result being processed. -/
def Race.find_course (race : Race) (_result : Result) : Option Course :=
  race.course

/-- Modelled from the spec: Control.get_number_code (memory.py is not among
the sources). Controls are written as a plain code, a choice set such as
"31(31,131)", or the wildcard; the numeric code is the leading digit run of
the code string, and a control not starting with a digit (the wildcard)
reads as "0" (§4.2, wildcard-zero). -/
def Control.get_number_code (c : Control) : String :=
  match c.code.data with
  | [] => "0"
  | ch :: _ => if ch.isDigit then String.mk (c.code.data.takeWhile Char.isDigit) else "0"

/-! ### Penalty calculator (result_checker.py, static methods) -/

/-- Inner loop of get_marked_route_incorrect_list: walk the comma-separated
alternatives of one choice control, stripping ")" and whitespace, and
collect incorrect numeric alternatives not seen before. -/
def addChoiceCodes (correct : String) : List String → List String → List String
  | [], ret => ret
  | cp0 :: parts, ret =>
    let cp := pyStripWS (pyStripChars cp0 [')'])
    addChoiceCodes correct parts
      (if cp ≠ correct ∧ pyIsDigit cp ∧ cp ∉ ret then ret ++ [cp] else ret)

/-- Outer loop of get_marked_route_incorrect_list over the controls. -/
def markedRouteGo : List Control → List String → List String
  | [], ret => ret
  | i :: rest, ret =>
    let code_str := i.code
    markedRouteGo rest
      (if code_str ≠ "" ∧ strHasChar code_str '(' then
        (let correct := pyStripWS ((pySplit code_str '(').headD "")
         if pyIsDigit correct then
           addChoiceCodes correct (pySplit ((pySplit code_str '(').getD 1 "") ',') ret
         else ret)
      else ret)

/-- ResultChecker.get_marked_route_incorrect_list: all distinct incorrect
members of choice controls written as "31(31,131)". -/
def get_marked_route_incorrect_list (controls : List Control) : List String :=
  markedRouteGo controls []

/-- The classic consumption loop of penalty_calculation: walk the course's
numeric codes; "0" consumes the first remaining punch, a code present in the
remaining punches removes one occurrence; the final remainder is returned. -/
def consumeControls : List String → List String → List String
  | [], user_array => user_array
  | i :: rest, user_array =>
    if i = "0" ∧ user_array ≠ [] then consumeControls rest user_array.tail
    else if i ∈ user_array then consumeControls rest (user_array.erase i)
    else consumeControls rest user_array

/-- ResultChecker.penalty_calculation: quantity of incorrect or duplicated
punches, order ignored; with check_existence, missing punches each add one. -/
def penalty_calculation (splits : List Split) (controls : List Control)
    (check_existence : Bool) : Nat :=
  let user_array := splits.map Split.code
  let origin_array := controls.map Control.get_number_code
  let res :=
    if check_existence ∧ user_array.length < origin_array.length then
      origin_array.length - user_array.length
    else 0
  let incorrect_array := get_marked_route_incorrect_list controls
  if incorrect_array ≠ [] then
    res + incorrect_array.countP (fun i => user_array.contains i)
  else
    res + (consumeControls origin_array user_array).length

/-- ResultChecker.penalty_calculation_free_order: shortfall of penalty-free
punches against the number of controls. -/
def penalty_calculation_free_order (splits : List Split) (controls : List Control) : Int :=
  let correct_count := splits.countP (fun i => !i.has_penalty)
  max ((controls.length : Int) - (correct_count : Int)) 0

/-- Walk of credit_calculation over consecutive split pairs. -/
def creditGo (credit_cp : Int) : Split → List Split → Int
  | _, [] => 0
  | prev, s :: rest =>
    (if pyInt s.code = credit_cp then s.time - prev.time else 0) + creditGo credit_cp s rest

/-- ResultChecker.credit_calculation: sum of leg durations ending at a punch
whose code equals the credit control, skipping a credit punch in first position. -/
def credit_calculation (splits : List Split) (credit_cp : Int) : Int :=
  match splits with
  | [] => 0
  | s :: rest => creditGo credit_cp s rest

/-- ResultChecker.detach_penalty_laps2: split punches into regular ones and
penalty-lap punches at the lap station. -/
def detach_penalty_laps2 (splits : List Split) (lap_station : Int) :
    List Split × List Split :=
  if splits.isEmpty then ([], [])
  else
    (splits.filter (fun punch => punch.is_correct || pyInt punch.code != lap_station),
     splits.filter (fun punch => pyInt punch.code == lap_station && !punch.is_correct))

/-- ResultChecker.penalty_calculation_trailo: one penalty-time unit per timed
control (numeric prefix at least 100, answer suffix not 'T') whose first
matching punch answers with a different letter. -/
def penalty_calculation_trailo (race : Race) (splits : List Split)
    (controls : List Control) : Int :=
  let penalty_time := race.marked_route_penalty_time
  controls.foldl (fun res control_point =>
    let control_point_code := pyInt (pyDropLast control_point.code)
    if control_point_code < 100 then res
    else if splits.any (fun cur_split =>
        (pyInt (pyDropLast cur_split.code) == control_point_code) &&
        (pyLastChar control_point.code != 'T') &&
        (pyLastChar cur_split.code != pyLastChar control_point.code)) then
      res + penalty_time
    else res) 0

/-! ### Score calculator (result_checker.py) -/

/-- ResultChecker.get_control_score: the explicit per-control score if set,
else the configured fixed value in fixed mode, else code div 10. -/
def get_control_score (race : Race) (code : String) : Int :=
  let fallback :=
    if race.result_processing_score_mode = "fixed" then
      race.result_processing_fixed_score_value
    else pyInt code / 10
  match race.controls.find? (fun c => c.code == code) with
  | some control => if control.score ≠ 0 then control.score else fallback
  | none => fallback

/-- Loop of calculate_rogaine_score over the punches, carrying codes seen. -/
def rogaineGo (race : Race) (allow_duplicates : Bool) :
    List String → List Split → Int
  | _, [] => 0
  | user_array, s :: rest =>
    let code := s.code
    if code ∉ user_array ∨ allow_duplicates then
      get_control_score race code + rogaineGo race allow_duplicates (user_array ++ [code]) rest
    else rogaineGo race allow_duplicates user_array rest

/-- ResultChecker.calculate_rogaine_score: each code scores on first sight,
or on every sight when duplicates are allowed. -/
def calculate_rogaine_score (race : Race) (result : Result)
    (allow_duplicates : Bool) : Int :=
  rogaineGo race allow_duplicates [] result.splits

/-- ResultChecker.calculate_rogaine_penalty: ceil(overrun minutes) times the
penalty step once past max_time, capped at the score. -/
def calculate_rogaine_penalty (result : Result) (score : Int) (penalty_step : Int) : Int :=
  let penalty :=
    match result.person with
    | none => 0
    | some p =>
      match p.group with
      | none => 0
      | some g =>
        let user_time := result.get_result_otime
        let max_time := g.max_time
        if 0 < max_time ∧ max_time < user_time then
          let seconds_diff := (user_time - max_time) / 1000
          ((seconds_diff + 59) / 60) * penalty_step
        else 0
  min penalty score

/-- Inner while loop of calculate_scores_ardf: try to place the punched code
at the cursor, skipping optional controls; returns the updated seen list,
score and cursor. The loop advances the cursor by one per iteration, so it
runs at most length-many times; it is written with a structural fuel of the
course length, and when the fuel runs out the cursor has necessarily reached
the length, which is exactly the loop's own exit (returning the state
unchanged), so the two exits agree. -/
def ardfInner (correct_order : List String) (code : String) :
    Nat → List String → Int → Nat → Nat → List String × Int × Nat
  | 0, user_array, ret, _, idx => (user_array, ret, idx)
  | fuel + 1, user_array, ret, initial_index, idx =>
    match correct_order.get? idx with
    | none => (user_array, ret, idx)
    | some current_cp =>
      if strHasChar current_cp '?' then
        if strHasChar current_cp '(' ∧ strHasChar current_cp ')' then
          let options := pySplit (pyStripChars current_cp ['?', '(', ')']) ','
          if code ∈ options ∧ code ∉ user_array then
            (user_array ++ [code], ret + 1, initial_index + 1)
          else
            ardfInner correct_order code fuel user_array ret initial_index (idx + 1)
        else
          if code ∉ user_array then
            (user_array ++ [code], ret + 1, initial_index + 1)
          else
            ardfInner correct_order code fuel user_array ret initial_index (idx + 1)
      else
        if code = current_cp then
          if code ∉ user_array then (user_array ++ [code], ret + 1, idx + 1)
          else (user_array, ret, idx + 1)
        else (user_array, ret, initial_index)

/-- Outer loop of calculate_scores_ardf over the punches. -/
def ardfOuter (correct_order : List String) :
    List Split → List String → Int → Nat → Int
  | [], _, ret, _ => ret
  | s :: rest, user_array, ret, index_in_order =>
    let r := ardfInner correct_order s.code correct_order.length
      user_array ret index_in_order index_in_order
    ardfOuter correct_order rest r.1 r.2.1 r.2.2

/-- ResultChecker.calculate_scores_ardf: ordered walk with optional controls;
past a positive max_time the competitor is disqualified and the score is 0.
Returns the score together with the (possibly status-mutated) result. -/
def calculate_scores_ardf (race : Race) (result : Result) : Int × Result :=
  match race.find_course result with
  | none => (0, result)
  | some course =>
    let correct_order := course.controls.map (fun control => control.code)
    let ret := ardfOuter correct_order result.splits [] 0 0
    match result.person with
    | none => (ret, result)
    | some p =>
      match p.group with
      | none => (ret, result)
      | some g =>
        if 0 < g.max_time ∧ g.max_time < result.get_result_otime then
          (0, { result with status := ResultStatus.DISQUALIFIED })
        else (ret, result)

/-- ResultChecker.calculate_scores_trailo: one point per control with numeric
prefix below 100 answered with the matching letter. -/
def calculate_scores_trailo (race : Race) (result : Result) : Int :=
  match race.find_course result with
  | none => 0
  | some course =>
    course.controls.foldl (fun ret control_point =>
      if 100 ≤ pyInt (pyDropLast control_point.code) then ret
      else if result.splits.any (fun cur_split =>
          (pyInt (pyDropLast cur_split.code) == pyInt (pyDropLast control_point.code)) &&
          (pyLastChar cur_split.code == pyLastChar control_point.code)) then ret + 1
      else ret) 0

/-- ResultChecker.calculate_time_trailo: sum of the times of the first punch
matching each open-time control (answer suffix 'T'). -/
def calculate_time_trailo (race : Race) (result : Result) : Int :=
  match race.find_course result with
  | none => 0
  | some course =>
    course.controls.foldl (fun ret control_point =>
      if pyLastChar control_point.code ≠ 'T' then ret
      else
        match result.splits.find? (fun cur_split =>
            (pyInt (pyDropLast cur_split.code) == pyInt (pyDropLast control_point.code)) &&
            (pyLastChar cur_split.code == 'T')) with
        | some s => ret + s.time
        | none => ret) 0

/-! ### Result status engine (result_checker.py, ResultChecker) -/

/-- Modelled from the spec: the standard-mode course check delegate
result.check(course) (memory.py is not among the sources). Per §4.1 it
passes exactly when the classic matching of §4.2 with existence checking
yields zero discrepancies, it records each punch's correctness flag against
the course's numeric control codes (§3: is_correct is set by checking), and
with no course it passes. -/
def Result.check (result : Result) (course : Option Course) : Bool × Result :=
  match course with
  | none => (true, result)
  | some c =>
    let codes := c.controls.map Control.get_number_code
    let marked := result.splits.map (fun s => { s with is_correct := codes.contains s.code })
    (penalty_calculation result.splits c.controls true == 0,
     { result with splits := marked })

/-- ResultChecker._get_course: resolve the course, absent when the result has
no person. -/
def get_course (race : Race) (result : Result) : Option Course :=
  match result.person with
  | none => none
  | some _ => race.find_course result

/-- ResultChecker._process_ardf_mode. -/
def process_ardf_mode (race : Race) (result : Result) : Result :=
  let r := calculate_scores_ardf race result
  { r.2 with scores_ardf := r.1 }

/-- ResultChecker._process_trailo_mode. -/
def process_trailo_mode (race : Race) (result : Result) : Result :=
  let scores := calculate_scores_trailo race result
  let penalty := calculate_rogaine_penalty result scores 1
  let time := calculate_time_trailo race result
  { result with
      trailo_score_penalty := penalty
      trailo_score := scores - penalty
      trailo_time := time }

/-- ResultChecker._process_scores_mode. -/
def process_scores_mode (race : Race) (result : Result) : Result :=
  let allow_duplicates := race.result_processing_scores_allow_duplicates
  let penalty_step := race.result_processing_scores_minute_penalty
  let score := calculate_rogaine_score race result allow_duplicates
  let penalty := calculate_rogaine_penalty result score penalty_step
  { result with
      rogaine_score := score - penalty
      rogaine_penalty := penalty }

/-- ResultChecker._process_standard_mode; the caller (check_result) has
already ruled out an absent group, so the group is passed directly. -/
def process_standard_mode (race : Race) (group : Group) (result : Result) :
    Bool × Result :=
  if race.marked_route_dont_dsq then
    (true, (Result.check result (get_course race result)).2)
  else
    match get_course race result with
    | none => (!group.is_any_course, result)
    | some course =>
      if group.is_any_course then (true, result)
      else Result.check result (some course)

/-- ResultChecker.check_result: dispatch on the processing mode; the score
modes always report success, the standard mode reports the course check. -/
def check_result (race : Race) (person : Person) (result : Result) :
    Bool × Result :=
  match person.group with
  | none => (true, result)
  | some group =>
    if race.result_processing_mode = "ardf" then
      (true, process_ardf_mode race result)
    else if race.result_processing_mode = "trailo" then
      (true, process_trailo_mode race result)
    else if race.result_processing_mode = "scores" then
      (true, process_scores_mode race result)
    else
      process_standard_mode race group result

/-- ResultChecker._calculate_standard_penalty. -/
def calculate_standard_penalty (race : Race) (group : Group) (course : Course)
    (mode0 : String) (result : Result) : Result :=
  let mode1 := if pyFindSub (pyLower group.name) "_min" then "time" else mode0
  let mode := if pyFindSub (pyLower group.name) "_lap" then "laps" else mode1
  let result :=
    if mode = "laps" ∧ race.marked_route_if_station_check then
      { result with
          splits := (detach_penalty_laps2 result.splits
            race.marked_route_penalty_lap_station_code).1 }
    else result
  let penalty0 :=
    if race.marked_route_dont_dsq then
      penalty_calculation_free_order result.splits course.controls
    else
      ((penalty_calculation result.splits course.controls true : Nat) : Int)
  let penalty :=
    if race.marked_route_max_penalty_by_cp then
      min (course.controls.length : Int) penalty0
    else penalty0
  let result := { result with penalty_laps := 0, penalty_time := 0 }
  if mode = "laps" then { result with penalty_laps := penalty }
  else if mode = "time" then
    { result with penalty_time := race.marked_route_penalty_time * penalty }
  else result

/-- ResultChecker.calculate_penalty. -/
def calculate_penalty (race : Race) (result : Result) : Result :=
  if race.marked_route_mode = "off" then result
  else
    match result.person with
    | none => result
    | some person =>
      match person.group with
      | none => result
      | some group =>
        match race.find_course result with
        | none => result
        | some course =>
          if race.result_processing_mode = "trailo" then
            { result with
                penalty_time := penalty_calculation_trailo race result.splits course.controls }
          else
            calculate_standard_penalty race group course race.marked_route_mode result

/-- ResultChecker.calculate_credit_time. -/
def calculate_credit_time (race : Race) (result : Result) : Result :=
  if !race.credit_time_enabled then result
  else { result with credit_time := credit_calculation result.splits race.credit_time_cp }

/-- ResultChecker.check_penalty_laps: in laps mode with station checking, the
laps actually run must not undercut the credited penalty laps. -/
def check_penalty_laps (race : Race) (result : Result) : Bool :=
  if race.marked_route_mode = "laps" ∧ race.marked_route_if_station_check then
    let penalty_laps := (detach_penalty_laps2 result.splits
      race.marked_route_penalty_lap_station_code).2
    if (penalty_laps.length : Int) < result.penalty_laps then false else true
  else true

/-- ResultChecker._check_overtime: skip without a group or with max_time 0;
time and ardf modes go overtime past max_time, scores mode only past
max_time plus a positive overrun grace window. -/
def check_overtime (race : Race) (result : Result) : Result :=
  match result.person with
  | none => result
  | some person =>
    match person.group with
    | none => result
    | some group =>
      let result_time := result.get_result_otime
      let max_time := group.max_time
      if max_time = 0 then result
      else if race.result_processing_mode = "time" ∨
              race.result_processing_mode = "ardf" then
        if max_time < result_time then
          { result with status := ResultStatus.OVERTIME }
        else result
      else if race.result_processing_mode = "scores" then
        let max_overrun_time := race.result_processing_scores_max_overrun_time
        if 0 < max_overrun_time ∧ max_time + max_overrun_time < result_time then
          { result with status := ResultStatus.OVERTIME }
        else result
      else result

/-- ResultChecker._validate_result_status: failed check gives MISSING_PUNCH,
failed lap accounting gives MISS_PENALTY_LAP, otherwise the overtime check runs. -/
def validate_result_status (race : Race) (result : Result) (check_flag : Bool) : Result :=
  if !check_flag then { result with status := ResultStatus.MISSING_PUNCH }
  else if !check_penalty_laps race result then
    { result with status := ResultStatus.MISS_PENALTY_LAP }
  else check_overtime race result

/-- Modelled from the spec: StatusComments().get_status_default_comment
(constant.py is not among the sources) attaches a human-readable default
comment for the final status (§4.1 step 5). -/
def get_status_default_comment : ResultStatus → String
  | ResultStatus.NONE => ""
  | ResultStatus.OK => "OK"
  | ResultStatus.MISSING_PUNCH => "missing punch"
  | ResultStatus.DISQUALIFIED => "disqualified"
  | ResultStatus.OVERTIME => "overtime"
  | ResultStatus.DID_NOT_START => "did not start"
  | ResultStatus.DID_NOT_FINISH => "did not finish"
  | ResultStatus.MISS_PENALTY_LAP => "missed penalty lap"
  | ResultStatus.MULTI_DAY_ISSUE => "multi day issue"

/-- The statuses that make ResultChecker.checking return without touching the
result (result_checker.py lines 88 to 95). -/
def finalizedStatuses : List ResultStatus :=
  [ResultStatus.OK, ResultStatus.MISSING_PUNCH, ResultStatus.OVERTIME,
   ResultStatus.MISS_PENALTY_LAP, ResultStatus.MULTI_DAY_ISSUE]

/-- ResultChecker.checking. The second component records whether the
ResultCheckerException was raised ("Not person"); the raise happens before
any mutation, so in that case the returned result is the input. -/
def checking (race : Race) (result : Result) : Result × Bool :=
  match result.person with
  | none => (result, true)
  | some person =>
    if result.status ∈ finalizedStatuses then (result, false)
    else
      let result1 := { result with status := ResultStatus.OK }
      let cr := check_result race person result1
      let result2 := calculate_penalty race cr.2
      let result3 := calculate_credit_time race result2
      let result4 := validate_result_status race result3 cr.1
      ({ result4 with status_comment := get_status_default_comment result4.status }, false)

/-! ### Group ranking engine (split_calculation.py, GroupSplits) -/

/-- The order on optional leg times produced by GroupSplits._sort_by_leg:
present legs ascending by time, persons lacking the leg last. -/
def legOrder : Option Int → Option Int → Prop
  | some a, some b => a ≤ b
  | some _, none => True
  | none, none => True
  | none, some _ => False

instance (a b : Option Int) : Decidable (legOrder a b) :=
  match a, b with
  | some x, some y => inferInstanceAs (Decidable (x ≤ y))
  | some _, none => isTrue trivial
  | none, none => isTrue trivial
  | none, some _ => isFalse (fun h => h)

/-- Loop of GroupSplits._set_places_for_leg: walk the (already sorted) leg
times with the enumeration index, the run counter of repeated times and the
previous time; persons lacking the leg are skipped but still counted by the
index; each present leg gets place index + 1 - counter. -/
def set_places_loop : Nat → Nat → Option Int → List (Option Int) → List (Option Nat)
  | _, _, _, [] => []
  | i, counter, prev, none :: rest => none :: set_places_loop (i + 1) counter prev rest
  | i, counter, prev, some t :: rest =>
    let c := if 0 < i ∧ prev = some t then counter + 1 else 0
    some (i + 1 - c) :: set_places_loop (i + 1) c (some t) rest

/-- GroupSplits._set_places_for_leg restricted to the data it reads and
writes: the sorted optional leg times in, the assigned places out (none for
a person lacking the leg, whose place is left untouched); the initial
previous time is the leader's time, the first entry's. -/
def set_places_for_leg (times : List (Option Int)) : List (Option Nat) :=
  match times with
  | [] => []
  | t :: rest => set_places_loop 0 0 t (t :: rest)

/-- The enum values listed in GroupSplits._sort_by_result as status_priority. -/
def status_priority : List Nat :=
  [ResultStatus.OVERTIME.value, ResultStatus.MISSING_PUNCH.value,
   ResultStatus.DISQUALIFIED.value, ResultStatus.DID_NOT_FINISH.value,
   ResultStatus.DID_NOT_START.value]

/-- The priority component of the sort key of GroupSplits._sort_by_result:
position in status_priority plus one when the status's value is listed, else
zero. Membership of the status in the value list is modelled from the spec as
comparison through the enum value (memory.py is not among the sources; §4.5
asserts these statuses sort after OK in this order). -/
def sortPriority (s : ResultStatus) : Nat :=
  match status_priority.indexOf? s.value with
  | some i => i + 1
  | none => 0

/-- The sort key comparison of GroupSplits._sort_by_result: priority first,
then the results themselves. Ordering of Result objects is modelled from the
spec (memory.py is not among the sources): §4.5, OK results sort by elapsed
result time. The leading item.result-is-None key component is constant false
for the person splits built from finishes and is dropped. -/
def resultSortLe (a b : Result) : Prop :=
  sortPriority a.status < sortPriority b.status ∨
    (sortPriority a.status = sortPriority b.status ∧
      a.get_result_otime ≤ b.get_result_otime)

instance (a b : Result) : Decidable (resultSortLe a b) := by
  unfold resultSortLe; infer_instance

instance : IsTotal Result resultSortLe where
  total a b := by
    unfold resultSortLe
    rcases Nat.lt_trichotomy (sortPriority a.status) (sortPriority b.status) with h | h | h
    · exact Or.inl (Or.inl h)
    · rcases le_total a.get_result_otime b.get_result_otime with h2 | h2
      · exact Or.inl (Or.inr ⟨h, h2⟩)
      · exact Or.inr (Or.inr ⟨h.symm, h2⟩)
    · exact Or.inr (Or.inl h)

instance : IsTrans Result resultSortLe where
  trans a b c hab hbc := by
    rcases hab with h1 | ⟨h1, h1t⟩ <;> rcases hbc with h2 | ⟨h2, h2t⟩
    · exact Or.inl (h1.trans h2)
    · exact Or.inl (h2 ▸ h1)
    · exact Or.inl (h1 ▸ h2)
    · exact Or.inr ⟨h1.trans h2, h1t.trans h2t⟩

/-- GroupSplits._sort_by_result: the Python stable sort by the key above,
modelled as insertion sort (stable for the same total preorder). -/
def sort_by_result (results : List Result) : List Result :=
  List.insertionSort resultSortLe results

/-! ### Spec-modelled free-order correctness flags -/

/-- Walk of markFreeOrderFlags carrying the codes already seen. -/
def markFreeOrderGo (seen : List String) : List Split → List Split
  | [] => []
  | s :: rest =>
    if s.code ∈ seen then
      { s with has_penalty := true } :: markFreeOrderGo seen rest
    else
      { s with has_penalty := false } :: markFreeOrderGo (s.code :: seen) rest

/-- Modelled from the spec: the free-order checking pass of result.check
(memory.py is not among the sources) that populates has_penalty before
penalty_calculation_free_order reads it; §4.2 free-order matching counts a
code once and checks duplication, so a punch repeating an already seen code
is flagged as a penalty punch. -/
def markFreeOrderFlags (splits : List Split) : List Split :=
  markFreeOrderGo [] splits

/-! ### Concrete fixtures used by the witnesses and counterexamples -/

/-- A punch with the given code (the other fields are irrelevant defaults). -/
def split0 (code : String) : Split :=
  { code := code, time := 0, is_correct := true, has_penalty := false }

/-- A control with the given code expression. -/
def control0 (code : String) : Control :=
  { code := code, length := 0, score := 0 }

/-- A baseline race configuration: classic time mode, every option off. -/
def race0 : Race :=
  { result_processing_mode := "time"
    marked_route_mode := "off"
    marked_route_dont_dsq := false
    marked_route_if_station_check := false
    marked_route_penalty_lap_station_code := 0
    marked_route_penalty_time := 60000
    marked_route_max_penalty_by_cp := false
    credit_time_enabled := false
    credit_time_cp := 250
    result_processing_scores_allow_duplicates := false
    result_processing_scores_minute_penalty := 1
    result_processing_scores_max_overrun_time := 0
    result_processing_score_mode := "fixed"
    result_processing_fixed_score_value := 1
    controls := []
    course := none }

/-- A baseline result record: no person, neutral status, empty card. -/
def result0 : Result :=
  { person := none
    splits := []
    status := ResultStatus.NONE
    status_comment := ""
    penalty_time := 0
    penalty_laps := 0
    credit_time := 0
    rogaine_score := 0
    rogaine_penalty := 0
    scores_ardf := 0
    trailo_score := 0
    trailo_score_penalty := 0
    trailo_time := 0
    start_time := 0
    finish_time := 0 }

/-- The ARDF example course of the spec: controls 10, "20?(20,120)", 30. -/
def courseArdf : Course :=
  { controls := [control0 "10", control0 "20?(20,120)", control0 "30"], length := 0 }

/-- An ARDF race configuration resolving the example course. -/
def raceArdf : Race :=
  { race0 with result_processing_mode := "ardf", course := some courseArdf }

/-- A group with no time limit. -/
def groupNoLimit : Group :=
  { name := "M21", max_time := 0, is_any_course := false, is_relay := false }

/-- A group with a one-hour time limit. -/
def groupOneHour : Group :=
  { name := "M21", max_time := 3600000, is_any_course := false, is_relay := false }

/-- An ARDF result with the given punch codes, no time limit applying. -/
def resultArdf (codes : List String) : Result :=
  { result0 with
      person := some { group := some groupNoLimit, bib := 1 }
      splits := codes.map split0 }

/-- A result that finished two hours after starting, in the one-hour group. -/
def resultOverOneHour : Result :=
  { result0 with
      person := some { group := some groupOneHour, bib := 2 }
      status := ResultStatus.OK
      finish_time := 7200000 }

/-- A scores-mode race whose overrun grace window is zero. -/
def raceScoresZeroGrace : Race :=
  { race0 with result_processing_mode := "scores" }

/-! ### Supporting lemmas -/

lemma addChoiceCodes_nodup (correct : String) :
    ∀ (parts ret : List String), ret.Nodup → (addChoiceCodes correct parts ret).Nodup := by
  intro parts
  induction parts with
  | nil => intro ret h; exact h
  | cons p ps ih =>
    intro ret h
    rw [addChoiceCodes]
    apply ih
    split
    · next hc =>
      simp only [List.nodup_append, List.nodup_cons, List.nodup_nil]
      exact ⟨h, by simp, by simpa using fun hx => hc.2.2 hx⟩
    · exact h

lemma markedRouteGo_nodup :
    ∀ (controls : List Control) (ret : List String), ret.Nodup →
      (markedRouteGo controls ret).Nodup := by
  intro controls
  induction controls with
  | nil => intro ret h; exact h
  | cons c cs ih =>
    intro ret h
    rw [markedRouteGo]
    apply ih
    split
    · dsimp only
      split
      · exact addChoiceCodes_nodup _ _ _ h
      · exact h
    · exact h

lemma get_marked_route_incorrect_list_nodup (controls : List Control) :
    (get_marked_route_incorrect_list controls).Nodup :=
  markedRouteGo_nodup controls [] List.nodup_nil

/-! ### Claim theorems -/

/-- C3: for every course whose controls contain no choice-set controls,
penalty_calculation consumes the course as a multiset left-to-right and
returns the number of athlete punches left unmatched, plus
(controls - punches) when check_existence is set and the athlete has fewer
punches than controls; with origin controls 31,41,51: punches 31,41,51 give
0, punches 31,42,51 give 1, punches 31,41,51,51 give 1, and the empty punch
list with existence checking gives 3. -/
theorem penalty_calculation_classic_spec :
    (∀ (splits : List Split) (controls : List Control) (check_existence : Bool),
        get_marked_route_incorrect_list controls = [] →
        penalty_calculation splits controls check_existence =
          (if check_existence ∧ splits.length < controls.length then
            controls.length - splits.length
          else 0)
          + (consumeControls (controls.map Control.get_number_code)
              (splits.map Split.code)).length)
    ∧ penalty_calculation [split0 "31", split0 "41", split0 "51"]
        [control0 "31", control0 "41", control0 "51"] true = 0
    ∧ penalty_calculation [split0 "31", split0 "42", split0 "51"]
        [control0 "31", control0 "41", control0 "51"] true = 1
    ∧ penalty_calculation [split0 "31", split0 "41", split0 "51", split0 "51"]
        [control0 "31", control0 "41", control0 "51"] true = 1
    ∧ penalty_calculation []
        [control0 "31", control0 "41", control0 "51"] true = 3 := by
  refine ⟨?_, by decide, by decide, by decide, by decide⟩
  intro splits controls check_existence h
  simp [penalty_calculation, h]

/-- C3 witness: the general classic formula instantiated on the concrete
31,41,51 course with punches 31,42,51 and existence checking. -/
theorem penalty_calculation_classic_spec_witness :
    penalty_calculation [split0 "31", split0 "42", split0 "51"]
        [control0 "31", control0 "41", control0 "51"] true =
      (if (true = true) ∧
          ([split0 "31", split0 "42", split0 "51"].length <
            [control0 "31", control0 "41", control0 "51"].length) then
        [control0 "31", control0 "41", control0 "51"].length -
          [split0 "31", split0 "42", split0 "51"].length
      else 0)
      + (consumeControls
          ([control0 "31", control0 "41", control0 "51"].map Control.get_number_code)
          ([split0 "31", split0 "42", split0 "51"].map Split.code)).length :=
  penalty_calculation_classic_spec.1 _ _ _ (by decide)

/-- C4: for every course containing at least one choice-set control,
penalty_calculation adds exactly one penalty per distinct incorrect
choice-member code occurring anywhere in the athlete's punch list (the
incorrect list is duplicate-free and only membership is tested), the classic
multiset consumption is skipped entirely, and only the check_existence
shortfall is still added. -/
theorem penalty_calculation_choice_spec :
    (∀ (splits : List Split) (controls : List Control) (check_existence : Bool),
        get_marked_route_incorrect_list controls ≠ [] →
        penalty_calculation splits controls check_existence =
          (if check_existence ∧ splits.length < controls.length then
            controls.length - splits.length
          else 0)
          + (get_marked_route_incorrect_list controls).countP
              (fun i => (splits.map Split.code).contains i))
    ∧ (∀ controls : List Control, (get_marked_route_incorrect_list controls).Nodup) := by
  refine ⟨?_, get_marked_route_incorrect_list_nodup⟩
  intro splits controls check_existence h
  simp [penalty_calculation, h]

/-- C4 witness: a course with the single choice control "31(31,131)" and
punches 131,131,31: the incorrect alternative 131 is counted once despite
the duplicate, and the unmatched plain punches add nothing. -/
theorem penalty_calculation_choice_spec_witness :
    penalty_calculation [split0 "131", split0 "131", split0 "31"]
        [control0 "31(31,131)"] false =
      (if (false = true) ∧
          ([split0 "131", split0 "131", split0 "31"].length <
            [control0 "31(31,131)"].length) then
        [control0 "31(31,131)"].length -
          [split0 "131", split0 "131", split0 "31"].length
      else 0)
      + (get_marked_route_incorrect_list [control0 "31(31,131)"]).countP
          (fun i => ([split0 "131", split0 "131", split0 "31"].map Split.code).contains i) :=
  penalty_calculation_choice_spec.1 _ _ _ (by decide)

/-- C5: penalty_calculation_free_order returns max(0, controls_count minus
the count of splits without the penalty flag), never penalising excess
punches; for a 3-control wildcard course and punches 31,31,31,31 (flagged by
the free-order checking pass) the penalty is 2. -/
theorem penalty_calculation_free_order_spec :
    (∀ (splits : List Split) (controls : List Control),
        penalty_calculation_free_order splits controls =
          max 0 ((controls.length : Int) -
            (splits.countP (fun s => !s.has_penalty) : Int)))
    ∧ penalty_calculation_free_order
        (markFreeOrderFlags [split0 "31", split0 "31", split0 "31", split0 "31"])
        [control0 "*", control0 "*", control0 "*"] = 2 := by
  constructor
  · intro splits controls
    rw [penalty_calculation_free_order, max_comm]
  · decide

/-- C6: calculate_scores_ardf awards one point per distinct correctly-ordered
punched code with optional controls skippable without penalty (on the
example course 10, "20?(20,120)", 30: punches 10,120,30 score 3 and punches
10,30 score 2), and whenever elapsed time exceeds a positive group max_time
it sets the result status to DISQUALIFIED and returns score 0. -/
theorem calculate_scores_ardf_spec :
    (calculate_scores_ardf raceArdf (resultArdf ["10", "120", "30"])).1 = 3
    ∧ (calculate_scores_ardf raceArdf (resultArdf ["10", "30"])).1 = 2
    ∧ (∀ (race : Race) (r : Result) (p : Person) (g : Group) (c : Course),
        race.find_course r = some c → r.person = some p → p.group = some g →
        0 < g.max_time → g.max_time < r.get_result_otime →
        (calculate_scores_ardf race r).1 = 0 ∧
          (calculate_scores_ardf race r).2.status = ResultStatus.DISQUALIFIED) := by
  refine ⟨by decide, by decide, ?_⟩
  intro race r p g c hc hp hg hmax hover
  simp only [calculate_scores_ardf, hc, hp, hg]
  rw [if_pos ⟨hmax, hover⟩]
  exact ⟨rfl, rfl⟩

/-- C6 witness: the disqualification branch instantiated on a result two
hours into a one-hour limit on the ARDF race. -/
theorem calculate_scores_ardf_spec_witness :
    (calculate_scores_ardf raceArdf resultOverOneHour).1 = 0 ∧
      (calculate_scores_ardf raceArdf resultOverOneHour).2.status =
        ResultStatus.DISQUALIFIED :=
  calculate_scores_ardf_spec.2.2 raceArdf resultOverOneHour
    { group := some groupOneHour, bib := 2 } groupOneHour courseArdf
    rfl rfl rfl (by decide) (by decide)

/-- C7 counterexample: in scores mode with a zero overrun grace window, a
result one hour past its group's one-hour max_time (elapsed time exceeding
max_time plus the configured window) is nevertheless not set to OVERTIME,
contradicting the claim's "exactly when" for scores mode. -/
theorem check_overtime_scores_counterexample :
    resultOverOneHour.person = some { group := some groupOneHour, bib := 2 }
    ∧ groupOneHour.max_time ≠ 0
    ∧ raceScoresZeroGrace.result_processing_mode = "scores"
    ∧ groupOneHour.max_time +
        raceScoresZeroGrace.result_processing_scores_max_overrun_time <
        resultOverOneHour.get_result_otime
    ∧ (check_overtime raceScoresZeroGrace resultOverOneHour).status ≠
        ResultStatus.OVERTIME := by
  decide

/-- C7 amended: with a group present, max_time zero never triggers OVERTIME;
in time and ardf modes a nonzero max_time strictly exceeded sets OVERTIME and
otherwise the result is untouched; in scores mode the status becomes
OVERTIME exactly when the overrun grace window is positive and elapsed time
exceeds max_time plus that window. -/
theorem check_overtime_spec (race : Race) (r : Result) (p : Person) (g : Group)
    (hp : r.person = some p) (hg : p.group = some g) :
    (g.max_time = 0 → check_overtime race r = r)
    ∧ ((race.result_processing_mode = "time" ∨
          race.result_processing_mode = "ardf") → g.max_time ≠ 0 →
        (g.max_time < r.get_result_otime →
          (check_overtime race r).status = ResultStatus.OVERTIME)
        ∧ (¬ g.max_time < r.get_result_otime → check_overtime race r = r))
    ∧ (race.result_processing_mode = "scores" → g.max_time ≠ 0 →
        r.status ≠ ResultStatus.OVERTIME →
        ((check_overtime race r).status = ResultStatus.OVERTIME ↔
          0 < race.result_processing_scores_max_overrun_time ∧
            g.max_time + race.result_processing_scores_max_overrun_time <
              r.get_result_otime)) := by
  simp only [check_overtime, hp, hg]
  refine ⟨fun h0 => by rw [if_pos h0], fun hm hne => ?_, fun hm hne hst => ?_⟩
  · rw [if_neg hne, if_pos hm]
    constructor
    · intro hover; rw [if_pos hover]
    · intro hover; rw [if_neg hover]
  · rw [if_neg hne, hm]
    simp only [if_neg (by decide : ¬("scores" = "time" ∨ "scores" = "ardf")),
      if_pos rfl]
    by_cases hcond : 0 < race.result_processing_scores_max_overrun_time ∧
        g.max_time + race.result_processing_scores_max_overrun_time <
          r.get_result_otime
    · rw [if_pos hcond]
      exact iff_of_true rfl hcond
    · rw [if_neg hcond]
      exact iff_of_false hst hcond

/-- C7 witness: the amended overtime characterisation instantiated on the
zero-grace scores race (no OVERTIME) and on a time-mode overrun (OVERTIME). -/
theorem check_overtime_spec_witness :
    (check_overtime raceScoresZeroGrace resultOverOneHour).status ≠
        ResultStatus.OVERTIME
    ∧ (check_overtime race0 resultOverOneHour).status = ResultStatus.OVERTIME := by
  constructor
  · intro hov
    have h := (check_overtime_spec raceScoresZeroGrace resultOverOneHour
      { group := some groupOneHour, bib := 2 } groupOneHour rfl rfl).2.2
      rfl (by decide) (by decide)
    exact absurd (h.mp hov).1 (by decide)
  · exact ((check_overtime_spec race0 resultOverOneHour
      { group := some groupOneHour, bib := 2 } groupOneHour rfl rfl).2.1
      (Or.inl rfl) (by decide)).1 (by decide)

/-- The five statuses that the final non-relay ordering pushes behind the OK
results, in their fixed priority order. -/
def listedStatuses : List ResultStatus :=
  [ResultStatus.OVERTIME, ResultStatus.MISSING_PUNCH, ResultStatus.DISQUALIFIED,
   ResultStatus.DID_NOT_FINISH, ResultStatus.DID_NOT_START]

lemma sortPriority_pos_of_listed {s : ResultStatus} (h : s ∈ listedStatuses) :
    1 ≤ sortPriority s := by
  fin_cases h <;> decide

/-- C9: the final ordering of a non-relay group is a permutation of its
results in which every result with status OVERTIME, MISSING_PUNCH,
DISQUALIFIED, DID_NOT_FINISH or DID_NOT_START sorts after every OK result,
those five statuses keep that fixed priority order among themselves (their
priorities being 1,2,3,4,5 against 0 for OK), and OK results are ordered
among themselves by elapsed result time. -/
theorem sort_by_result_spec (results : List Result) :
    (sort_by_result results).Perm results
    ∧ sortPriority ResultStatus.OVERTIME = 1
    ∧ sortPriority ResultStatus.MISSING_PUNCH = 2
    ∧ sortPriority ResultStatus.DISQUALIFIED = 3
    ∧ sortPriority ResultStatus.DID_NOT_FINISH = 4
    ∧ sortPriority ResultStatus.DID_NOT_START = 5
    ∧ sortPriority ResultStatus.OK = 0
    ∧ (sort_by_result results).Pairwise (fun a b =>
        (a.status ∈ listedStatuses → b.status ≠ ResultStatus.OK)
        ∧ (a.status ∈ listedStatuses → b.status ∈ listedStatuses →
            sortPriority a.status ≤ sortPriority b.status)
        ∧ (a.status = ResultStatus.OK → b.status = ResultStatus.OK →
            a.get_result_otime ≤ b.get_result_otime)) := by
  refine ⟨List.perm_insertionSort _ _, by decide, by decide, by decide, by decide,
    by decide, by decide, ?_⟩
  have hs : (sort_by_result results).Pairwise resultSortLe :=
    List.sorted_insertionSort resultSortLe results
  refine hs.imp (fun {a b} hab => ?_)
  refine ⟨fun ha hb => ?_, fun ha hb => ?_, fun ha hb => ?_⟩
  · have h1 := sortPriority_pos_of_listed ha
    have h2 : sortPriority b.status = 0 := by rw [hb]; decide
    rcases hab with hlt | ⟨heq, _⟩ <;> omega
  · rcases hab with hlt | ⟨heq, _⟩
    · exact Nat.le_of_lt hlt
    · exact Nat.le_of_eq heq
  · rcases hab with hlt | ⟨_, hle⟩
    · exfalso
      have h2 : sortPriority a.status = 0 := by rw [ha]; decide
      have h3 : sortPriority b.status = 0 := by rw [hb]; decide
      omega
    · exact hle

lemma pairwise_le_getLast (l : List Int) (h : l.Pairwise (fun a b : Int => a ≤ b)) :
    ∀ x ∈ l, ∀ (hne : l ≠ []), x ≤ l.getLast hne := by
  induction l with
  | nil => intro x hx; simp at hx
  | cons a l ih =>
    intro x hx hne
    rcases List.mem_cons.mp hx with rfl | hx'
    · cases l with
      | nil => simp [List.getLast]
      | cons b l' =>
        rw [List.getLast_cons (List.cons_ne_nil b l')]
        exact (List.pairwise_cons.mp h).1 _ (List.getLast_mem (List.cons_ne_nil b l'))
    · have hl : l ≠ [] := by rintro rfl; simp at hx'
      rw [List.getLast_cons hl]
      exact ih (List.pairwise_cons.mp h).2 x hx' hl

lemma countP_lt_add_countP_eq (t : Int) (l : List Int) (hb : ∀ x ∈ l, x ≤ t) :
    l.countP (fun x => decide (x < t)) + l.countP (fun x => decide (x = t)) =
      l.length := by
  induction l with
  | nil => simp
  | cons a l ih =>
    have ha := hb a (List.mem_cons_self a l)
    have hrest : ∀ x ∈ l, x ≤ t := fun x hx => hb x (List.mem_cons_of_mem a hx)
    have hih := ih hrest
    rcases lt_or_eq_of_le ha with h | h
    · have h1 : ¬ (a = t) := ne_of_lt h
      simp only [List.countP_cons, decide_eq_true_eq, if_pos h, if_neg h1,
        List.length_cons]
      omega
    · have h1 : ¬ (a < t) := by omega
      simp only [List.countP_cons, decide_eq_true_eq, if_pos h, if_neg h1,
        List.length_cons]
      omega

lemma set_places_loop_spec :
    ∀ (rest : List (Option Int)) (done : List Int) (counter : Nat) (prev : Option Int),
      List.Pairwise legOrder (done.map some ++ rest) →
      (∀ (hne : done ≠ []), prev = some (done.getLast hne) ∧
          counter + 1 = done.countP (fun x => decide (x = done.getLast hne))) →
      ∀ j t, rest.get? j = some (some t) →
        (set_places_loop done.length counter prev rest).get? j =
          some (some (1 + done.countP (fun x => decide (x < t))
            + ((rest.take j).filterMap id).countP (fun u => decide (u < t)))) := by
  intro rest
  induction rest with
  | nil => intro done counter prev _ _ j t hj; simp at hj
  | cons o rest ih =>
    intro done counter prev hs hd j t hj
    obtain ⟨hpw1, hpw2, hcross⟩ := List.pairwise_append.mp hs
    cases o with
    | none =>
      exfalso
      cases j with
      | zero => simp at hj
      | succ k =>
        have hmem : some t ∈ rest := List.get?_mem hj
        exact (List.pairwise_cons.mp hpw2).1 (some t) hmem
    | some t0 =>
      have hdone_pw : done.Pairwise (fun a b : Int => a ≤ b) :=
        (List.pairwise_map.mp hpw1).imp (fun h => h)
      have hbound : ∀ x ∈ done, x ≤ t0 := fun x hx =>
        hcross (some x) (List.mem_map_of_mem some hx) (some t0)
          (List.mem_cons_self _ _)
      have hc : (if 0 < done.length ∧ prev = some t0 then counter + 1 else 0)
          = done.countP (fun x => decide (x = t0)) := by
        match hdm : done with
        | [] => simp
        | d0 :: ds =>
          have hne : d0 :: ds ≠ [] := List.cons_ne_nil _ _
          obtain ⟨hprev, hcount⟩ := hd hne
          by_cases hLt : (d0 :: ds).getLast hne = t0
          · rw [if_pos ⟨by simp, by rw [hprev, hLt]⟩, ← hLt]
            exact hcount
          · have hL2 : (d0 :: ds).getLast hne ≤ t0 :=
              hbound _ (List.getLast_mem hne)
            rw [if_neg (by
              rintro ⟨-, hpe⟩
              rw [hprev] at hpe
              exact hLt (Option.some_injective _ hpe))]
            symm
            rw [List.countP_eq_zero]
            intro x hx
            have hxle := pairwise_le_getLast _ hdone_pw x hx hne
            simp only [decide_eq_true_eq]
            rcases lt_or_eq_of_le hL2 with h | h
            · omega
            · exact absurd h hLt
      cases j with
      | zero =>
        have ht : t0 = t := by
          simpa using hj
        subst ht
        show (set_places_loop done.length counter prev (some t0 :: rest)).get? 0 = _
        rw [set_places_loop]
        simp only [List.get?_cons_zero, Option.some.injEq]
        rw [hc]
        have hle := List.countP_le_length (fun x => decide (x = t0)) (l := done)
        have hsum := countP_lt_add_countP_eq t0 done hbound
        simp only [List.take_zero, List.filterMap_nil, List.countP_nil]
        omega
      | succ k =>
        have hjk : rest.get? k = some (some t) := hj
        rw [set_places_loop]
        simp only [List.get?_cons_succ]
        have hs' : List.Pairwise legOrder ((done ++ [t0]).map some ++ rest) := by
          have hrearr : (done ++ [t0]).map some ++ rest =
              done.map some ++ (some t0 :: rest) := by
            simp
          rw [hrearr]
          exact hs
        have hd' : ∀ (hne : done ++ [t0] ≠ []),
            some t0 = some ((done ++ [t0]).getLast hne) ∧
            (if 0 < done.length ∧ prev = some t0 then counter + 1 else 0) + 1 =
              (done ++ [t0]).countP
                (fun x => decide (x = (done ++ [t0]).getLast hne)) := by
          intro hne
          have hlast : (done ++ [t0]).getLast hne = t0 := List.getLast_concat _
          rw [hlast, hc, List.countP_append]
          exact ⟨rfl, by simp⟩
        have hrec := ih (done ++ [t0])
          (if 0 < done.length ∧ prev = some t0 then counter + 1 else 0)
          (some t0) hs' hd' k t hjk
        rw [List.length_append] at hrec
        simp only [List.length_cons, List.length_nil, Nat.zero_add] at hrec
        rw [hrec]
        simp only [List.take_succ_cons, List.filterMap_cons, Option.some.injEq]
        simp only [List.countP_append, List.countP_cons, List.countP_nil,
          id_eq, List.filterMap_cons]
        omega

lemma countP_lt_drop_zero :
    ∀ (times : List (Option Int)), List.Pairwise legOrder times →
      ∀ i t, times.get? i = some (some t) →
        ((times.drop i).filterMap id).countP (fun u => decide (u < t)) = 0 := by
  intro times
  induction times with
  | nil => intro _ i t h; simp at h
  | cons o rest ih =>
    intro hp i t hi
    cases i with
    | zero =>
      have ho : o = some t := by simpa using hi
      subst ho
      simp only [List.drop_zero, List.filterMap_cons, id_eq]
      rw [List.countP_eq_zero]
      intro u hu
      simp only [decide_eq_true_eq]
      rcases List.mem_cons.mp hu with rfl | hu'
      · omega
      · have hmem : some u ∈ rest := by
          rcases List.mem_filterMap.mp hu' with ⟨a, ha, hae⟩
          simpa [show a = some u from hae] using ha
        have := (List.pairwise_cons.mp hp).1 (some u) hmem
        have hle : t ≤ u := this
        omega
    | succ k =>
      exact ih (List.pairwise_cons.mp hp).2 k t hi

/-- C8: on the leg-time list of a group sorted ascending with persons lacking
the leg last (the order _sort_by_leg establishes), _set_places_for_leg
shares places on ties: every present leg time t receives place one plus the
number of strictly better finishers, so equal times receive equal places; in
particular the competitor behind exactly two tied leaders receives place 3. -/
theorem set_places_for_leg_spec (times : List (Option Int))
    (hs : List.Pairwise legOrder times) :
    (∀ i t, times.get? i = some (some t) →
        (set_places_for_leg times).get? i =
          some (some (1 + (times.filterMap id).countP (fun u => decide (u < t)))))
    ∧ (∀ i j t, times.get? i = some (some t) → times.get? j = some (some t) →
        (set_places_for_leg times).get? i = (set_places_for_leg times).get? j) := by
  have main : ∀ i t, times.get? i = some (some t) →
      (set_places_for_leg times).get? i =
        some (some (1 + (times.filterMap id).countP (fun u => decide (u < t)))) := by
    intro i t hi
    match htimes : times with
    | [] => simp at hi
    | t0 :: rest =>
      rw [set_places_for_leg]
      have hloop := set_places_loop_spec (t0 :: rest) [] 0 t0
        (by simpa using hs) (by intro hne; exact absurd rfl hne) i t hi
      simp only [List.length_nil, List.countP_nil] at hloop
      rw [hloop]
      have hdecomp : (t0 :: rest).filterMap id =
          ((t0 :: rest).take i).filterMap id ++ ((t0 :: rest).drop i).filterMap id := by
        rw [← List.filterMap_append, List.take_append_drop]
      simp only [Option.some.injEq]
      rw [hdecomp, List.countP_append,
        countP_lt_drop_zero (t0 :: rest) hs i t hi]
      omega
  refine ⟨main, fun i j t hi hj => ?_⟩
  rw [main i t hi, main j t hj]

/-- C8 witness: on leg times 10,10,20 the theorem places the third
competitor at leg_place 3, not 4, behind the two tied leaders. -/
theorem set_places_for_leg_spec_witness :
    (set_places_for_leg [some 10, some 10, some 20]).get? 2 = some (some 3) := by
  have h := (set_places_for_leg_spec [some 10, some 10, some 20] (by decide)).1
    2 20 rfl
  simpa using h

/-! ### Field-preservation lemmas for the checking pipeline -/

lemma result_check_fields (r : Result) (c : Option Course) :
    (Result.check r c).2.person = r.person ∧
    (Result.check r c).2.status = r.status ∧
    (Result.check r c).2.start_time = r.start_time ∧
    (Result.check r c).2.finish_time = r.finish_time := by
  rcases c with _ | c <;> exact ⟨rfl, rfl, rfl, rfl⟩

lemma calculate_scores_ardf_fields (race : Race) (r : Result) :
    (calculate_scores_ardf race r).2.person = r.person ∧
    (calculate_scores_ardf race r).2.start_time = r.start_time ∧
    (calculate_scores_ardf race r).2.finish_time = r.finish_time := by
  unfold calculate_scores_ardf
  split
  · exact ⟨rfl, rfl, rfl⟩
  · dsimp only
    split
    · exact ⟨rfl, rfl, rfl⟩
    · split
      · exact ⟨rfl, rfl, rfl⟩
      · split
        · exact ⟨rfl, rfl, rfl⟩
        · exact ⟨rfl, rfl, rfl⟩

lemma calculate_scores_ardf_status (race : Race) (r : Result) :
    (calculate_scores_ardf race r).2.status = r.status ∨
      ((calculate_scores_ardf race r).2.status = ResultStatus.DISQUALIFIED ∧
        ∃ p g, r.person = some p ∧ p.group = some g ∧ 0 < g.max_time ∧
          g.max_time < r.get_result_otime) := by
  unfold calculate_scores_ardf
  split
  · exact Or.inl rfl
  · dsimp only
    split
    · exact Or.inl rfl
    · next p hp =>
      split
      · exact Or.inl rfl
      · next g hg =>
        split
        · next hcond => exact Or.inr ⟨rfl, p, g, hp, hg, hcond.1, hcond.2⟩
        · exact Or.inl rfl

lemma process_standard_mode_fields (race : Race) (g : Group) (r : Result) :
    (process_standard_mode race g r).2.person = r.person ∧
    (process_standard_mode race g r).2.status = r.status ∧
    (process_standard_mode race g r).2.start_time = r.start_time ∧
    (process_standard_mode race g r).2.finish_time = r.finish_time := by
  unfold process_standard_mode
  split
  · exact result_check_fields r _
  · split
    · exact ⟨rfl, rfl, rfl, rfl⟩
    · split
      · exact ⟨rfl, rfl, rfl, rfl⟩
      · exact result_check_fields r _

lemma check_result_fields (race : Race) (p : Person) (r : Result) :
    (check_result race p r).2.person = r.person ∧
    (check_result race p r).2.start_time = r.start_time ∧
    (check_result race p r).2.finish_time = r.finish_time := by
  unfold check_result
  split
  · exact ⟨rfl, rfl, rfl⟩
  · split
    · unfold process_ardf_mode
      obtain ⟨h1, h2, h3⟩ := calculate_scores_ardf_fields race r
      exact ⟨h1, h2, h3⟩
    · split
      · exact ⟨rfl, rfl, rfl⟩
      · split
        · exact ⟨rfl, rfl, rfl⟩
        · obtain ⟨h1, _, h3, h4⟩ := process_standard_mode_fields race _ r
          exact ⟨h1, h3, h4⟩

lemma check_result_status (race : Race) (p : Person) (r : Result) :
    (check_result race p r).2.status = r.status ∨
      (race.result_processing_mode = "ardf" ∧
        (check_result race p r).2.status = ResultStatus.DISQUALIFIED ∧
        ∃ p' g, r.person = some p' ∧ p'.group = some g ∧ 0 < g.max_time ∧
          g.max_time < r.get_result_otime) := by
  unfold check_result
  split
  · exact Or.inl rfl
  · split
    · next hmode =>
      unfold process_ardf_mode
      rcases calculate_scores_ardf_status race r with h | ⟨h, hex⟩
      · exact Or.inl h
      · exact Or.inr ⟨hmode, h, hex⟩
    · split
      · exact Or.inl rfl
      · split
        · exact Or.inl rfl
        · exact Or.inl (process_standard_mode_fields race _ r).2.1

lemma calculate_standard_penalty_fields (race : Race) (g : Group) (c : Course)
    (m : String) (r : Result) :
    (calculate_standard_penalty race g c m r).person = r.person ∧
    (calculate_standard_penalty race g c m r).status = r.status ∧
    (calculate_standard_penalty race g c m r).start_time = r.start_time ∧
    (calculate_standard_penalty race g c m r).finish_time = r.finish_time := by
  unfold calculate_standard_penalty
  dsimp only
  split_ifs <;> exact ⟨rfl, rfl, rfl, rfl⟩

lemma calculate_penalty_fields (race : Race) (r : Result) :
    (calculate_penalty race r).person = r.person ∧
    (calculate_penalty race r).status = r.status ∧
    (calculate_penalty race r).start_time = r.start_time ∧
    (calculate_penalty race r).finish_time = r.finish_time := by
  unfold calculate_penalty
  split
  · exact ⟨rfl, rfl, rfl, rfl⟩
  · split
    · exact ⟨rfl, rfl, rfl, rfl⟩
    · split
      · exact ⟨rfl, rfl, rfl, rfl⟩
      · split
        · exact ⟨rfl, rfl, rfl, rfl⟩
        · split
          · exact ⟨rfl, rfl, rfl, rfl⟩
          · exact calculate_standard_penalty_fields _ _ _ _ _

lemma calculate_credit_time_fields (race : Race) (r : Result) :
    (calculate_credit_time race r).person = r.person ∧
    (calculate_credit_time race r).status = r.status ∧
    (calculate_credit_time race r).start_time = r.start_time ∧
    (calculate_credit_time race r).finish_time = r.finish_time := by
  unfold calculate_credit_time
  split <;> exact ⟨rfl, rfl, rfl, rfl⟩

lemma check_overtime_person (race : Race) (r : Result) :
    (check_overtime race r).person = r.person := by
  unfold check_overtime
  split
  · rfl
  · try dsimp only
    split
    · rfl
    · try dsimp only
      split
      · rfl
      · split
        · split <;> rfl
        · split
          · split <;> rfl
          · rfl

lemma check_overtime_status (race : Race) (r : Result) :
    (check_overtime race r).status = r.status ∨
      (check_overtime race r).status = ResultStatus.OVERTIME := by
  unfold check_overtime
  split
  · exact Or.inl rfl
  · try dsimp only
    split
    · exact Or.inl rfl
    · try dsimp only
      split
      · exact Or.inl rfl
      · split
        · split
          · exact Or.inr rfl
          · exact Or.inl rfl
        · split
          · split
            · exact Or.inr rfl
            · exact Or.inl rfl
          · exact Or.inl rfl

lemma check_overtime_of_overrun (race : Race) (r : Result) (p : Person) (g : Group)
    (hp : r.person = some p) (hg : p.group = some g)
    (hmode : race.result_processing_mode = "ardf")
    (hmax : 0 < g.max_time) (hover : g.max_time < r.get_result_otime) :
    (check_overtime race r).status = ResultStatus.OVERTIME := by
  simp only [check_overtime, hp, hg]
  rw [if_neg (by omega), if_pos (Or.inr hmode), if_pos hover]

lemma validate_result_status_person (race : Race) (r : Result) (flag : Bool) :
    (validate_result_status race r flag).person = r.person := by
  unfold validate_result_status
  split
  · rfl
  · split
    · rfl
    · exact check_overtime_person race r

lemma validate_result_status_mem (race : Race) (r : Result) (flag : Bool)
    (h : r.status = ResultStatus.OK ∨
      (race.result_processing_mode = "ardf" ∧ r.status = ResultStatus.DISQUALIFIED ∧
        ∃ p g, r.person = some p ∧ p.group = some g ∧ 0 < g.max_time ∧
          g.max_time < r.get_result_otime)) :
    (validate_result_status race r flag).status ∈ finalizedStatuses := by
  unfold validate_result_status
  split
  · simp [finalizedStatuses]
  · split
    · simp [finalizedStatuses]
    · rcases h with hok | ⟨hmode, _, p, g, hp, hg, hmax, hover⟩
      · rcases check_overtime_status race r with h2 | h2 <;>
          simp [h2, hok, finalizedStatuses]
      · have h2 := check_overtime_of_overrun race r p g hp hg hmode hmax hover
        simp [h2, finalizedStatuses]

lemma checking_raises (race : Race) (r : Result) :
    (checking race r).2 = true ↔ r.person = none := by
  unfold checking
  split
  · next heq => simp [heq]
  · next p heq =>
    split
    · simp [heq]
    · simp [heq]

lemma checking_finalized (race : Race) (r : Result) (p : Person)
    (hp : r.person = some p) (hf : r.status ∈ finalizedStatuses) :
    checking race r = (r, false) := by
  simp [checking, hp, hf]

lemma checking_person (race : Race) (r : Result) :
    (checking race r).1.person = r.person := by
  unfold checking
  split
  · rfl
  · next p heq =>
    split
    · rfl
    · dsimp only
      rw [validate_result_status_person, (calculate_credit_time_fields _ _).1,
        (calculate_penalty_fields _ _).1, (check_result_fields _ _ _).1, heq]

lemma checking_status_mem (race : Race) (r : Result) (p : Person)
    (hp : r.person = some p) :
    (checking race r).1.status ∈ finalizedStatuses := by
  unfold checking
  split
  · next heq => rw [heq] at hp; simp at hp
  · next p' heq =>
    split
    · next hf => exact hf
    · next hf =>
      dsimp only
      apply validate_result_status_mem
      have hcs : (calculate_credit_time race (calculate_penalty race
          (check_result race p' { r with status := ResultStatus.OK }).2)).status =
          (check_result race p' { r with status := ResultStatus.OK }).2.status := by
        rw [(calculate_credit_time_fields _ _).2.1, (calculate_penalty_fields _ _).2.1]
      rcases check_result_status race p' { r with status := ResultStatus.OK } with
        h | ⟨hmode, hdsq, p2, g, hp2, hg2, hmax, hover⟩
      · left
        rw [hcs, h]
      · right
        refine ⟨hmode, by rw [hcs, hdsq], p2, g, ?_, hg2, hmax, ?_⟩
        · rw [(calculate_credit_time_fields _ _).1, (calculate_penalty_fields _ _).1,
            (check_result_fields _ _ _).1]
          exact hp2
        · have hco : (calculate_credit_time race (calculate_penalty race
              (check_result race p' { r with status := ResultStatus.OK }).2)).get_result_otime =
              ({ r with status := ResultStatus.OK } : Result).get_result_otime := by
            unfold Result.get_result_otime
            rw [(calculate_credit_time_fields _ _).2.2.1, (calculate_penalty_fields _ _).2.2.1,
              (calculate_credit_time_fields _ _).2.2.2, (calculate_penalty_fields _ _).2.2.2,
              (check_result_fields _ _ _).2.1, (check_result_fields _ _ _).2.2]
          rw [hco]
          exact hover

/-- C1: checking raises the ResultCheckerException exactly when the result
has no person, leaving the result unmodified in that case, and for a result
whose status is already one of OK, MISSING_PUNCH, OVERTIME, MISS_PENALTY_LAP,
MULTI_DAY_ISSUE it is a no-op returning the result with every field unchanged. -/
theorem checking_exception_spec (race : Race) (r : Result) :
    ((checking race r).2 = true ↔ r.person = none)
    ∧ (r.person = none → (checking race r).1 = r)
    ∧ (∀ p, r.person = some p → r.status ∈ finalizedStatuses →
        checking race r = (r, false)) := by
  refine ⟨checking_raises race r, ?_, fun p hp hf => checking_finalized race r p hp hf⟩
  intro h
  simp [checking, h]

/-- A groupless person used by the concrete no-person and no-group instances. -/
def personNoGroup : Person := { group := none, bib := 3 }

/-- A result already finalized as OK, owned by the groupless person. -/
def resultFinalizedOk : Result :=
  { result0 with person := some personNoGroup, status := ResultStatus.OK }

/-- C1 witness: a personless result raises and is left unmodified; a
finalized OK result with a person is returned untouched without raising. -/
theorem checking_exception_spec_witness :
    (checking race0 result0).1 = result0
    ∧ ((checking race0 result0).2 = true)
    ∧ checking race0 resultFinalizedOk = (resultFinalizedOk, false) :=
  ⟨(checking_exception_spec race0 result0).2.1 rfl,
   (checking_exception_spec race0 result0).1.mpr rfl,
   (checking_exception_spec race0 resultFinalizedOk).2.2 personNoGroup rfl (by decide)⟩

/-- C2: for a result with a person, running checking a second time over the
unchanged race configuration returns the first run's result entirely
unchanged (hence with identical status, penalties, credit time and scores)
and raises nothing: the first run always leaves a finalized status behind. -/
theorem checking_idempotent (race : Race) (r : Result) (p : Person)
    (hp : r.person = some p) :
    checking race (checking race r).1 = ((checking race r).1, false) := by
  have h1 : (checking race r).1.person = some p := by
    rw [checking_person]; exact hp
  exact checking_finalized race _ p h1 (checking_status_mem race r p hp)

/-- C2 witness: idempotence instantiated on the overran result checked under
the baseline time-mode race. -/
theorem checking_idempotent_witness :
    checking race0 (checking race0 resultOverOneHour).1 =
      ((checking race0 resultOverOneHour).1, false) :=
  checking_idempotent race0 resultOverOneHour
    { group := some groupOneHour, bib := 2 } rfl

lemma check_overtime_no_group (race : Race) (X : Result) (p : Person)
    (hp : X.person = some p) (hg : p.group = none) :
    check_overtime race X = X := by
  simp [check_overtime, hp, hg]

lemma check_penalty_laps_congr (race : Race) (a b : Result)
    (hsp : a.splits = b.splits) (hl : a.penalty_laps = b.penalty_laps) :
    check_penalty_laps race a = check_penalty_laps race b := by
  unfold check_penalty_laps
  rw [hsp, hl]

lemma calculate_credit_time_splits_laps (race : Race) (r : Result) :
    (calculate_credit_time race r).splits = r.splits ∧
    (calculate_credit_time race r).penalty_laps = r.penalty_laps := by
  unfold calculate_credit_time
  split <;> exact ⟨rfl, rfl⟩

/-- C10 amended: for a result whose person has no group and whose status is
not finalized, checking ends with status OK exactly when the penalty-lap
check passes on the result's punches and credited penalty-lap count, and
with MISS_PENALTY_LAP exactly when that check fails (a stale positive
penalty_laps under laps mode with station checking); in particular it can
never end with MISSING_PUNCH, OVERTIME, or DISQUALIFIED in any processing
mode. -/
theorem checking_no_group_spec (race : Race) (r : Result) (p : Person)
    (hp : r.person = some p) (hg : p.group = none)
    (hs : r.status ∉ finalizedStatuses) :
    ((checking race r).1.status =
      if check_penalty_laps race r then ResultStatus.OK
      else ResultStatus.MISS_PENALTY_LAP)
    ∧ (checking race r).1.status ≠ ResultStatus.MISSING_PUNCH
    ∧ (checking race r).1.status ≠ ResultStatus.OVERTIME
    ∧ (checking race r).1.status ≠ ResultStatus.DISQUALIFIED := by
  have hmain : (checking race r).1.status =
      if check_penalty_laps race r then ResultStatus.OK
      else ResultStatus.MISS_PENALTY_LAP := by
    unfold checking
    split
    · next heq => rw [heq] at hp; simp at hp
    · next p' heq =>
      have hpp : p' = p := by
        rw [heq] at hp
        exact Option.some_injective _ hp
      subst hpp
      split
      · next hf => exact absurd hf hs
      · dsimp only
        have hcr : check_result race p' { r with status := ResultStatus.OK } =
            (true, { r with status := ResultStatus.OK }) := by
          simp [check_result, hg]
        have hpen : calculate_penalty race { r with status := ResultStatus.OK } =
            { r with status := ResultStatus.OK } := by
          simp [calculate_penalty, hp, hg]
        rw [hcr]
        dsimp only
        rw [hpen]
        have hlaps : check_penalty_laps race
            (calculate_credit_time race { r with status := ResultStatus.OK }) =
            check_penalty_laps race r := by
          apply check_penalty_laps_congr
          · rw [(calculate_credit_time_splits_laps _ _).1]
          · rw [(calculate_credit_time_splits_laps _ _).2]
        unfold validate_result_status
        simp only [Bool.not_true, Bool.false_eq_true, if_false]
        rw [hlaps]
        by_cases hcpl : check_penalty_laps race r = true
        · rw [if_neg (by simp [hcpl]), if_pos hcpl]
          have hXp : (calculate_credit_time race
              { r with status := ResultStatus.OK }).person = some p' := by
            rw [(calculate_credit_time_fields _ _).1]
            exact hp
          rw [check_overtime_no_group race _ p' hXp hg,
            (calculate_credit_time_fields _ _).2.1]
        · have hf : check_penalty_laps race r = false := by
            revert hcpl
            cases check_penalty_laps race r <;> simp
          rw [if_pos (by simp [hf]), if_neg hcpl]
  refine ⟨hmain, ?_, ?_, ?_⟩ <;> rw [hmain] <;> split <;> decide

/-- A laps-mode race with station checking enabled at station code 100. -/
def raceLaps : Race :=
  { race0 with
      marked_route_mode := "laps"
      marked_route_if_station_check := true
      marked_route_penalty_lap_station_code := 100 }

/-- A result owned by the groupless person that still carries one credited
penalty lap from an earlier state, with an empty card. -/
def resultStaleLaps : Result :=
  { result0 with person := some personNoGroup, penalty_laps := 1 }

/-- C10 counterexample: the groupless result with a stale credited penalty
lap is finished by checking with status MISS_PENALTY_LAP, not OK, although
its person is present, its person's group is absent and its status was not
finalized; so checking does not always terminate with status OK there. -/
theorem checking_no_group_counterexample :
    resultStaleLaps.person = some personNoGroup
    ∧ personNoGroup.group = none
    ∧ resultStaleLaps.status ∉ finalizedStatuses
    ∧ (checking raceLaps resultStaleLaps).1.status = ResultStatus.MISS_PENALTY_LAP
    ∧ (checking raceLaps resultStaleLaps).1.status ≠ ResultStatus.OK := by
  decide

/-- C10 witness: the amended characterisation instantiated on the stale-lap
result under the laps-mode race, where the penalty-lap check fails. -/
theorem checking_no_group_spec_witness :
    (checking raceLaps resultStaleLaps).1.status =
      if check_penalty_laps raceLaps resultStaleLaps then ResultStatus.OK
      else ResultStatus.MISS_PENALTY_LAP :=
  (checking_no_group_spec raceLaps resultStaleLaps personNoGroup rfl rfl (by decide)).1

end SportOrg
